import Mathlib

/-!
The request pipeline of `graphql.Do`.

A shallow embedding of `src/graphql.go`: the `Params` bundle and the function
`Do`, which runs a request through parse, validate and execute and stops at the
first phase that fails.

`Do` calls five collaborators that live outside `src/graphql.go`
(`parser.Parse`, `gqlerrors.FormatErrors`, `ValidateDocument`, `Execute` and the
`opentracing` tracer).  They are parameters of the embedding (`Env`), and every
call that `Do` makes to the tracer or to a phase is appended to a log of
`Event`s, so that statements about which collaborator is invoked, with which
arguments and in which order are statements about that log.
-/

namespace Graphql

/-- The Go types that `src/graphql.go` uses without declaring them.  Each one is
a parameter of the embedding.  Interface, function and pointer types stand for
their non-nil values; a field that may hold `nil` has an `Option` type. -/
structure Carriers where
  /-- The struct `graphql.Schema`. -/
  Schema : Type
  /-- The value `*ast.Document` returned by the parser. -/
  Document : Type
  /-- A non-nil Go `error`. -/
  Error : Type
  /-- The struct `gqlerrors.FormattedError`. -/
  FormattedError : Type
  /-- A non-nil `context.Context`. -/
  Context : Type
  /-- A non-nil `opentracing.Span`. -/
  Span : Type
  /-- The type `map[string]interface{}` (its nil value included). -/
  Map : Type
  /-- A non-nil `interface{}` held by `Result.Data`. -/
  Data : Type
  /-- A non-nil `func(ctx context.Context, err interface{})`. -/
  PanicHandler : Type
  /-- A non-nil value of the interface `graphql.Executor`. -/
  Executor : Type
  /-- The function type `ValidationRuleFn`. -/
  Rule : Type

/-- The conversion `[]byte(s)` of a Go string: its UTF-8 bytes. -/
def bytesOf (str : String) : List UInt8 :=
  str.data.flatMap String.utf8EncodeChar

/-- The struct `source.Source`, with the two fields that `Do` sets. -/
structure Source where
  Body : List UInt8
  Name : String
deriving DecidableEq, Repr

/-- Modelled from the spec: `source.NewSource`, the Source Wrapper, which is not
under `src/`.  The spec describes it as "pure data, no behavior of its own": it
"tags raw request text with a logical name".  It returns the Source it is
given. -/
def NewSource (s : Source) : Source := s

/-- The struct `parser.ParseParams`, with the field that `Do` sets. -/
structure ParseParams where
  Source : Source
deriving DecidableEq, Repr

/-- The struct `Params` (`src/graphql.go`, lines 12-42). -/
structure Params (T : Carriers) where
  Schema : T.Schema
  RequestString : String
  RootObject : T.Map
  VariableValues : T.Map
  OperationName : String
  Context : Option T.Context
  PanicHandler : Option T.PanicHandler
  Executor : Option T.Executor

/-- The struct `ExecuteParams`, with the eight fields that `Do` sets
(`src/graphql.go`, lines 77-86). -/
structure ExecuteParams (T : Carriers) where
  Schema : T.Schema
  Root : T.Map
  AST : T.Document
  OperationName : String
  Args : T.Map
  Context : Option T.Context
  PanicHandler : Option T.PanicHandler
  Executor : Option T.Executor

/-- Modelled from the spec: the struct `Result`, declared outside `src/`.  The
spec gives it a "data value tree (nullable)" and "an ordered sequence of error
records"; `Do` writes its field `Errors` and leaves `Data` at its zero value. -/
structure Result (T : Carriers) where
  Data : Option T.Data
  Errors : List T.FormattedError

/-- The struct `ValidationResult`, with the two fields that `Do` reads. -/
structure ValidationResult (T : Carriers) where
  IsValid : Bool
  Errors : List T.FormattedError

/-- The collaborators of `Do`.  During one call of `Do` each of them is invoked
at most once per argument, so a function of the arguments describes all that
`Do` can observe of it. -/
structure Env (T : Carriers) where
  /-- The first result of `opentracing.StartSpanFromContext(ctx, name)`; the
  second one is discarded by `Do`. -/
  StartSpanFromContext : T.Context → String → Option T.Span
  /-- The two results `(AST, err)` of `parser.Parse`. -/
  Parse : ParseParams → T.Document × Option T.Error
  /-- The variadic `gqlerrors.FormatErrors(errs ...error)`. -/
  FormatErrors : List T.Error → List T.FormattedError
  /-- The function `ValidateDocument(schema, astDoc, rules)`.  It receives the
  schema by address and, by its contract, does not write through it; a `nil`
  rule slice is `none`. -/
  ValidateDocument : T.Schema → T.Document → Option (List T.Rule) → ValidationResult T
  /-- The function `Execute(p ExecuteParams)`. -/
  Execute : ExecuteParams T → Result T

/-- One call from `Do` to the tracer or to a phase. -/
inductive Event (T : Carriers) where
  /-- The call `opentracing.StartSpanFromContext(ctx, operationName)`. -/
  | startSpan (ctx : T.Context) (operationName : String)
  /-- The call `span.Finish()`. -/
  | finishSpan (span : T.Span)
  /-- The call `parser.Parse(params)`. -/
  | parse (params : ParseParams)
  /-- The call `ValidateDocument(schema, astDoc, rules)`. -/
  | validate (schema : T.Schema) (astDoc : T.Document) (rules : Option (List T.Rule))
  /-- The call `Execute(params)`. -/
  | execute (params : ExecuteParams T)

/-- Append one event to the log. -/
def emit {T : Carriers} (e : Event T) : StateM (List (Event T)) Unit :=
  modify fun log => log ++ [e]

/-- A logged call of `opentracing.StartSpanFromContext`. -/
def startSpanFromContext {T : Carriers} (env : Env T) (ctx : T.Context) (operationName : String) :
    StateM (List (Event T)) (Option T.Span) := do
  emit (.startSpan ctx operationName)
  pure (env.StartSpanFromContext ctx operationName)

/-- A logged call of `span.Finish`. -/
def finish {T : Carriers} (span : T.Span) : StateM (List (Event T)) Unit :=
  emit (.finishSpan span)

/-- A logged call of `parser.Parse`. -/
def parse {T : Carriers} (env : Env T) (params : ParseParams) :
    StateM (List (Event T)) (T.Document × Option T.Error) := do
  emit (.parse params)
  pure (env.Parse params)

/-- A logged call of `ValidateDocument`. -/
def validateDocument {T : Carriers} (env : Env T) (schema : T.Schema) (astDoc : T.Document)
    (rules : Option (List T.Rule)) : StateM (List (Event T)) (ValidationResult T) := do
  emit (.validate schema astDoc rules)
  pure (env.ValidateDocument schema astDoc rules)

/-- A logged call of `Execute`. -/
def execute {T : Carriers} (env : Env T) (params : ExecuteParams T) :
    StateM (List (Event T)) (Result T) := do
  emit (.execute params)
  pure (env.Execute params)

/-- The function `Do` (`src/graphql.go`, lines 44-87), statement by statement. -/
def Do {T : Carriers} (env : Env T) (p : Params T) : StateM (List (Event T)) (Result T) := do
  let source := NewSource { Body := bytesOf p.RequestString, Name := "GraphQL request" }
  let mut span : Option T.Span := none
  if let some ctx := p.Context then
    span ← startSpanFromContext env ctx "GraphQL Parsing"
  let (AST, err) ← parse env { Source := source }
  if let some sp := span then
    finish sp
  if let some e := err then
    return { Data := none, Errors := env.FormatErrors [e] }
  if let some ctx := p.Context then
    span ← startSpanFromContext env ctx "GraphQL Validation"
  let validationResult ← validateDocument env p.Schema AST none
  if let some sp := span then
    finish sp
  if !validationResult.IsValid then
    return { Data := none, Errors := validationResult.Errors }
  execute env {
    Schema := p.Schema,
    Root := p.RootObject,
    AST := AST,
    OperationName := p.OperationName,
    Args := p.VariableValues,
    Context := p.Context,
    PanicHandler := p.PanicHandler,
    Executor := p.Executor }

/-- The Result that `Do(p)` returns. -/
def doResult {T : Carriers} (env : Env T) (p : Params T) : Result T :=
  ((Do env p).run []).1

/-- The calls that `Do(p)` makes, in order. -/
def doLog {T : Carriers} (env : Env T) (p : Params T) : List (Event T) :=
  ((Do env p).run []).2

/-- The value that `Do` hands to the parser. -/
def requestSource {T : Carriers} (p : Params T) : ParseParams :=
  { Source := NewSource { Body := bytesOf p.RequestString, Name := "GraphQL request" } }

/-- The value that `Do` hands to `Execute` when the parser returned `ast`. -/
def executeParamsOf {T : Carriers} (p : Params T) (ast : T.Document) : ExecuteParams T :=
  { Schema := p.Schema, Root := p.RootObject, AST := ast, OperationName := p.OperationName,
    Args := p.VariableValues, Context := p.Context, PanicHandler := p.PanicHandler,
    Executor := p.Executor }

/-- The finish call for the span handle a start call returned: none for `nil`. -/
def finishEvents {T : Carriers} (span : Option T.Span) : List (Event T) :=
  match span with
  | some sp => [.finishSpan sp]
  | none => []

/-- The tracer calls before a phase when the request has the context `c`. -/
def spanOpen {T : Carriers} (c : Option T.Context) (operationName : String) : List (Event T) :=
  match c with
  | some ctx => [.startSpan ctx operationName]
  | none => []

/-- The tracer calls after a phase when the request has the context `c`. -/
def spanClose {T : Carriers} (env : Env T) (c : Option T.Context) (operationName : String) :
    List (Event T) :=
  match c with
  | some ctx => finishEvents (env.StartSpanFromContext ctx operationName)
  | none => []

/-- Whether the event is a call to the tracer. -/
def Event.isTracer {T : Carriers} : Event T → Bool
  | .startSpan _ _ => true
  | .finishSpan _ => true
  | _ => false

/-- Whether the event is the call to the Parser. -/
def Event.isParse {T : Carriers} : Event T → Bool
  | .parse _ => true
  | _ => false

/-- Whether the event is the call to the Validator. -/
def Event.isValidate {T : Carriers} : Event T → Bool
  | .validate _ _ _ => true
  | _ => false

/-- Whether the event is the call to the Executor. -/
def Event.isExecute {T : Carriers} : Event T → Bool
  | .execute _ => true
  | _ => false

/-- Whether the event is a call to one of the three phases. -/
def Event.isPhase {T : Carriers} (e : Event T) : Bool :=
  e.isParse || e.isValidate || e.isExecute

/-- The arguments of a Validator call. -/
def Event.validateArgs {T : Carriers} :
    Event T → Option (T.Schema × T.Document × Option (List T.Rule))
  | .validate schema astDoc rules => some (schema, astDoc, rules)
  | _ => none

/-- The argument of an Executor call. -/
def Event.executeArgs {T : Carriers} : Event T → Option (ExecuteParams T)
  | .execute params => some params
  | _ => none

/-- The AST that the Parser returns for the request text of `p`. -/
def parsedAST {T : Carriers} (env : Env T) (p : Params T) : T.Document :=
  (env.Parse (requestSource p)).1

/-- The error that the Parser returns for the request text of `p` (`none` for `nil`). -/
def parseError {T : Carriers} (env : Env T) (p : Params T) : Option T.Error :=
  (env.Parse (requestSource p)).2

/-- The verdict of the Validator on the schema of `p` and the parsed request, under the
default rules. -/
def verdict {T : Carriers} (env : Env T) (p : Params T) : ValidationResult T :=
  env.ValidateDocument p.Schema (parsedAST env p) none

/-- Carriers for concrete requests: a schema is the longest request it admits, the
AST of a request is its bytes, a span is its operation name. -/
@[reducible] def demoCarriers : Carriers where
  Schema := Nat
  Document := List UInt8
  Error := String
  FormattedError := String
  Context := Nat
  Span := String
  Map := List (String × Nat)
  Data := String
  PanicHandler := Unit
  Executor := Unit
  Rule := Unit

/-- Concrete collaborators: the parser accepts a request that ends in a closing brace,
the validator accepts an AST no longer than the schema admits, the executor answers
with the operation name. -/
def demoEnv : Env demoCarriers where
  StartSpanFromContext := fun _ operationName => some operationName
  Parse := fun params =>
    (params.Source.Body,
      if params.Source.Body.getLast? = some 125 then none else some "Syntax Error")
  FormatErrors := fun errs => errs
  ValidateDocument := fun schema astDoc _ =>
    if astDoc.length ≤ schema then { IsValid := true, Errors := [] }
    else { IsValid := false, Errors := ["Cannot query field"] }
  Execute := fun params => { Data := some params.OperationName, Errors := [] }

/-- A request with the given text and context against a schema that admits nine bytes. -/
def demoParams (request : String) (ctx : Option Nat) : Params demoCarriers where
  Schema := 9
  RequestString := request
  RootObject := [("viewer", 1)]
  VariableValues := [("id", 7)]
  OperationName := "Hello"
  Context := ctx
  PanicHandler := none
  Executor := none

/-- The Result and the log of `Do`, in closed form. -/
theorem Do_run {T : Carriers} (env : Env T) (p : Params T) :
    (Do env p).run [] =
      match env.Parse (requestSource p) with
      | (_, some e) =>
        ({ Data := none, Errors := env.FormatErrors [e] },
          spanOpen p.Context "GraphQL Parsing" ++ [.parse (requestSource p)]
            ++ spanClose env p.Context "GraphQL Parsing")
      | (ast, none) =>
        let v := env.ValidateDocument p.Schema ast none
        let log := spanOpen p.Context "GraphQL Parsing" ++ [.parse (requestSource p)]
            ++ spanClose env p.Context "GraphQL Parsing"
            ++ spanOpen p.Context "GraphQL Validation" ++ [.validate p.Schema ast none]
            ++ spanClose env p.Context "GraphQL Validation"
        if v.IsValid then (env.Execute (executeParamsOf p ast), log ++ [.execute (executeParamsOf p ast)])
        else ({ Data := none, Errors := v.Errors }, log) := by
  rcases hp : env.Parse (requestSource p) with ⟨ast, _ | e⟩ <;>
  rcases hc : p.Context with _ | ctx <;>
  cases hv : (env.ValidateDocument p.Schema ast none).IsValid <;>
  try cases h1 : env.StartSpanFromContext ctx "GraphQL Parsing" <;>
    cases h2 : env.StartSpanFromContext ctx "GraphQL Validation"
  all_goals
    simp only [requestSource, NewSource] at hp
    simp [Do, *, NewSource, requestSource, executeParamsOf, spanOpen, spanClose,
      finishEvents, parse, validateDocument, execute, finish, startSpanFromContext, emit,
      StateT.run, bind, StateT.bind, pure, StateT.pure, modify, modifyGet,
      MonadStateOf.modifyGet, StateT.modifyGet]

/-- The closed form of `Do`, split into Result and log, over `parseError` and `verdict`. -/
theorem Do_cases {T : Carriers} (env : Env T) (p : Params T) :
    (∀ e, parseError env p = some e →
      doResult env p = { Data := none, Errors := env.FormatErrors [e] } ∧
      doLog env p = spanOpen p.Context "GraphQL Parsing" ++ [.parse (requestSource p)]
        ++ spanClose env p.Context "GraphQL Parsing") ∧
    (parseError env p = none → (verdict env p).IsValid = false →
      doResult env p = { Data := none, Errors := (verdict env p).Errors } ∧
      doLog env p = spanOpen p.Context "GraphQL Parsing" ++ [.parse (requestSource p)]
        ++ spanClose env p.Context "GraphQL Parsing"
        ++ spanOpen p.Context "GraphQL Validation" ++ [.validate p.Schema (parsedAST env p) none]
        ++ spanClose env p.Context "GraphQL Validation") ∧
    (parseError env p = none → (verdict env p).IsValid = true →
      doResult env p = env.Execute (executeParamsOf p (parsedAST env p)) ∧
      doLog env p = spanOpen p.Context "GraphQL Parsing" ++ [.parse (requestSource p)]
        ++ spanClose env p.Context "GraphQL Parsing"
        ++ spanOpen p.Context "GraphQL Validation" ++ [.validate p.Schema (parsedAST env p) none]
        ++ spanClose env p.Context "GraphQL Validation"
        ++ [.execute (executeParamsOf p (parsedAST env p))]) := by
  have h := Do_run env p
  simp only [doResult, doLog, parseError, verdict, parsedAST]
  rcases hp : env.Parse (requestSource p) with ⟨ast, _ | e⟩ <;> rw [hp] at h <;>
    cases hv : (env.ValidateDocument p.Schema ast none).IsValid <;> simp [h, hv]

/-- No tracer event among the events that open a span when there is no context. -/
theorem spanOpen_none {T : Carriers} (operationName : String) :
    spanOpen (none : Option T.Context) operationName = ([] : List (Event T)) := rfl

/-- No tracer event among the events that close a span when there is no context. -/
theorem spanClose_none {T : Carriers} (env : Env T) (operationName : String) :
    spanClose env (none : Option T.Context) operationName = [] := rfl

/-- Events that open a span are calls to no phase. -/
theorem spanOpen_phase {T : Carriers} (c : Option T.Context) (operationName : String) :
    ∀ e ∈ (spanOpen c operationName : List (Event T)),
      e.isParse = false ∧ e.isValidate = false ∧ e.isExecute = false := by
  cases c <;> simp [spanOpen, Event.isParse, Event.isValidate, Event.isExecute]

/-- Events that close a span are calls to no phase. -/
theorem spanClose_phase {T : Carriers} (env : Env T) (c : Option T.Context)
    (operationName : String) : ∀ e ∈ spanClose env c operationName,
      e.isParse = false ∧ e.isValidate = false ∧ e.isExecute = false := by
  cases c with
  | none => simp [spanClose]
  | some ctx =>
    cases h : env.StartSpanFromContext ctx operationName <;>
      simp [spanClose, finishEvents, h, Event.isParse, Event.isValidate, Event.isExecute]

/-- C1. When the Parser rejects the request text with the error `err`, `Do` returns the
Result whose Errors are `FormatErrors(err)` and whose Data is nil, and the log of the
call holds no Validator call and no Executor call. -/
theorem Do_parse_failure {T : Carriers} (env : Env T) (p : Params T) (err : T.Error)
    (h : parseError env p = some err) :
    doResult env p = { Data := none, Errors := env.FormatErrors [err] } ∧
    (doResult env p).Data = none ∧
    (doResult env p).Errors = env.FormatErrors [err] ∧
    ∀ e ∈ doLog env p, e.isValidate = false ∧ e.isExecute = false := by
  obtain ⟨hr, hl⟩ := (Do_cases env p).1 err h
  refine ⟨hr, by rw [hr], by rw [hr], ?_⟩
  intro e he
  rw [hl] at he
  simp only [List.mem_append, List.mem_singleton] at he
  rcases he with (he | he) | he
  · exact ⟨(spanOpen_phase _ _ e he).2.1, (spanOpen_phase _ _ e he).2.2⟩
  · subst he; exact ⟨rfl, rfl⟩
  · exact ⟨(spanClose_phase _ _ _ e he).2.1, (spanClose_phase _ _ _ e he).2.2⟩

/-- C1 at the unterminated request of the spec, with a context. -/
theorem Do_parse_failure_witness :
    parseError demoEnv (demoParams "\x7b hel" (some 4)) = some "Syntax Error" ∧
    (doResult demoEnv (demoParams "\x7b hel" (some 4)) =
        { Data := none, Errors := demoEnv.FormatErrors ["Syntax Error"] } ∧
      (doResult demoEnv (demoParams "\x7b hel" (some 4))).Data = none ∧
      (doResult demoEnv (demoParams "\x7b hel" (some 4))).Errors =
        demoEnv.FormatErrors ["Syntax Error"] ∧
      ∀ e ∈ doLog demoEnv (demoParams "\x7b hel" (some 4)),
        e.isValidate = false ∧ e.isExecute = false) :=
  ⟨by decide, Do_parse_failure demoEnv (demoParams "\x7b hel" (some 4)) "Syntax Error" (by decide)⟩

/-- C2. When the request text parses and the verdict of the Validator is invalid,
`Do` returns the Result whose Errors are the list of the verdict, as it is, and whose
Data is nil, and the log of the call holds no Executor call. -/
theorem Do_validation_failure {T : Carriers} (env : Env T) (p : Params T)
    (hparse : parseError env p = none) (hinvalid : (verdict env p).IsValid = false) :
    doResult env p = { Data := none, Errors := (verdict env p).Errors } ∧
    (doResult env p).Errors = (verdict env p).Errors ∧
    (doResult env p).Data = none ∧
    ∀ e ∈ doLog env p, e.isExecute = false := by
  obtain ⟨hr, hl⟩ := (Do_cases env p).2.1 hparse hinvalid
  refine ⟨hr, by rw [hr], by rw [hr], ?_⟩
  intro e he
  rw [hl] at he
  simp only [List.mem_append, List.mem_singleton] at he
  rcases he with ((((he | he) | he) | he) | he) | he
  · exact (spanOpen_phase _ _ e he).2.2
  · subst he; rfl
  · exact (spanClose_phase _ _ _ e he).2.2
  · exact (spanOpen_phase _ _ e he).2.2
  · subst he; rfl
  · exact (spanClose_phase _ _ _ e he).2.2

/-- C2 at the request of the spec for a field the schema does not have. -/
theorem Do_validation_failure_witness :
    parseError demoEnv (demoParams "\x7b unknownField \x7d" (some 4)) = none ∧
    (verdict demoEnv (demoParams "\x7b unknownField \x7d" (some 4))).IsValid = false ∧
    (doResult demoEnv (demoParams "\x7b unknownField \x7d" (some 4)) =
        { Data := none,
          Errors := (verdict demoEnv (demoParams "\x7b unknownField \x7d" (some 4))).Errors } ∧
      (doResult demoEnv (demoParams "\x7b unknownField \x7d" (some 4))).Errors =
        (verdict demoEnv (demoParams "\x7b unknownField \x7d" (some 4))).Errors ∧
      (doResult demoEnv (demoParams "\x7b unknownField \x7d" (some 4))).Data = none ∧
      ∀ e ∈ doLog demoEnv (demoParams "\x7b unknownField \x7d" (some 4)), e.isExecute = false) :=
  ⟨by decide, by decide,
    Do_validation_failure demoEnv (demoParams "\x7b unknownField \x7d" (some 4)) (by decide)
      (by decide)⟩

/-- C3. When the request text parses and the verdict is valid, the Executor is called
once, and the Result of `Do` is the Result that this call returns: same Data, same
Errors. -/
theorem Do_returns_executor_result {T : Carriers} (env : Env T) (p : Params T)
    (hparse : parseError env p = none) (hvalid : (verdict env p).IsValid = true) :
    ∃ call : ExecuteParams T,
      (doLog env p).filterMap Event.executeArgs = [call] ∧
      doResult env p = env.Execute call ∧
      (doResult env p).Data = (env.Execute call).Data ∧
      (doResult env p).Errors = (env.Execute call).Errors := by
  obtain ⟨hr, hl⟩ := (Do_cases env p).2.2 hparse hvalid
  refine ⟨executeParamsOf p (parsedAST env p), ?_, hr, by rw [hr], by rw [hr]⟩
  rw [hl]
  rcases hc : p.Context with _ | ctx
  · simp [spanOpen, spanClose, Event.executeArgs]
  · cases h1 : env.StartSpanFromContext ctx "GraphQL Parsing" <;>
      cases h2 : env.StartSpanFromContext ctx "GraphQL Validation" <;>
      simp [spanOpen, spanClose, finishEvents, h1, h2, Event.executeArgs]

/-- C3 at the valid request of the spec. -/
theorem Do_returns_executor_result_witness :
    parseError demoEnv (demoParams "\x7b hello \x7d" (some 4)) = none ∧
    (verdict demoEnv (demoParams "\x7b hello \x7d" (some 4))).IsValid = true ∧
    ∃ call : ExecuteParams demoCarriers,
      (doLog demoEnv (demoParams "\x7b hello \x7d" (some 4))).filterMap Event.executeArgs = [call] ∧
      doResult demoEnv (demoParams "\x7b hello \x7d" (some 4)) = demoEnv.Execute call ∧
      (doResult demoEnv (demoParams "\x7b hello \x7d" (some 4))).Data = (demoEnv.Execute call).Data ∧
      (doResult demoEnv (demoParams "\x7b hello \x7d" (some 4))).Errors =
        (demoEnv.Execute call).Errors :=
  ⟨by decide, by decide,
    Do_returns_executor_result demoEnv (demoParams "\x7b hello \x7d" (some 4)) (by decide)
      (by decide)⟩

/-- C4. Let the collaborators meet their contracts: `FormatErrors` of a non-nil parse
error is a non-empty list, and a verdict with no violations is marked valid.  When
parsing fails or the verdict is invalid, the Result of `Do` has no Data and a non-empty
Errors sequence. -/
theorem Do_failure_result_shape {T : Carriers} (env : Env T) (p : Params T)
    (hformat : ∀ err : T.Error, env.FormatErrors [err] ≠ [])
    (hverdict : ∀ schema astDoc rules,
      (env.ValidateDocument schema astDoc rules).Errors = [] →
        (env.ValidateDocument schema astDoc rules).IsValid = true)
    (hfail : parseError env p ≠ none ∨ (verdict env p).IsValid = false) :
    (doResult env p).Data = none ∧ (doResult env p).Errors ≠ [] := by
  rcases hp : parseError env p with _ | err
  · have hinvalid : (verdict env p).IsValid = false := by
      rcases hfail with hfail | hfail
      · exact absurd hp hfail
      · exact hfail
    obtain ⟨hr, -⟩ := (Do_cases env p).2.1 hp hinvalid
    rw [hr]
    refine ⟨rfl, fun hnil => ?_⟩
    have hv := hverdict p.Schema (parsedAST env p) none hnil
    simp only [verdict] at hinvalid
    rw [hinvalid] at hv
    exact Bool.noConfusion hv
  · obtain ⟨hr, -⟩ := (Do_cases env p).1 err hp
    rw [hr]
    exact ⟨rfl, hformat err⟩

/-- C4 at the unterminated request of the spec. -/
theorem Do_failure_result_shape_witness :
    (∀ err : String, demoEnv.FormatErrors [err] ≠ []) ∧
    (∀ schema astDoc rules,
      (demoEnv.ValidateDocument schema astDoc rules).Errors = [] →
        (demoEnv.ValidateDocument schema astDoc rules).IsValid = true) ∧
    (parseError demoEnv (demoParams "\x7b hel" none) ≠ none ∨
      (verdict demoEnv (demoParams "\x7b hel" none)).IsValid = false) ∧
    (doResult demoEnv (demoParams "\x7b hel" none)).Data = none ∧
    (doResult demoEnv (demoParams "\x7b hel" none)).Errors ≠ [] :=
  have hformat : ∀ err : String, demoEnv.FormatErrors [err] ≠ [] := by
    intro err; simp [demoEnv]
  have hverdict : ∀ schema astDoc rules,
      (demoEnv.ValidateDocument schema astDoc rules).Errors = [] →
        (demoEnv.ValidateDocument schema astDoc rules).IsValid = true := by
    intro schema astDoc rules
    simp only [demoEnv]
    split <;> simp
  ⟨hformat, hverdict, Or.inl (by decide),
    Do_failure_result_shape demoEnv (demoParams "\x7b hel" none) hformat hverdict
      (Or.inl (by decide))⟩

/-- C5, the claim as stated, refuted: no reading of the arguments of the Validator call
yields the context of the request.  Two requests that differ in their (non-nil) context
alone lead to the same Validator call. -/
theorem validator_call_carries_no_context :
    ¬ ∃ contextOf : Nat × List UInt8 × Option (List Unit) → Option Nat,
      ∀ p : Params demoCarriers, p.Context ≠ none →
        ∀ args ∈ (doLog demoEnv p).filterMap Event.validateArgs, contextOf args = p.Context := by
  rintro ⟨contextOf, h⟩
  have h1 := h (demoParams "\x7b hello \x7d" (some 1)) (by decide)
    (9, bytesOf "\x7b hello \x7d", none) (by decide)
  have h2 := h (demoParams "\x7b hello \x7d" (some 2)) (by decide)
    (9, bytesOf "\x7b hello \x7d", none) (by decide)
  rw [h1] at h2
  exact absurd h2 (by decide)

/-- C5, amended. With a non-nil context `ctx`, every call of `StartSpanFromContext`
receives `ctx`, every Executor call receives `ctx` in `ExecuteParams.Context`, and the
Validator call receives the schema, the AST and nil rules, and no context.  The span of
the parse phase is started with `ctx`; so is the span of the validation phase when the
request text parses; and the Executor is called with `ctx` when the verdict is valid. -/
theorem Do_context_passing {T : Carriers} (env : Env T) (p : Params T) (ctx : T.Context)
    (hctx : p.Context = some ctx) :
    (∀ c operationName, Event.startSpan c operationName ∈ doLog env p → c = ctx) ∧
    (∀ params, Event.execute params ∈ doLog env p → params.Context = some ctx) ∧
    (∀ schema astDoc rules, Event.validate schema astDoc rules ∈ doLog env p →
      schema = p.Schema ∧ astDoc = parsedAST env p ∧ rules = none) ∧
    Event.startSpan ctx "GraphQL Parsing" ∈ doLog env p ∧
    (parseError env p = none → Event.startSpan ctx "GraphQL Validation" ∈ doLog env p) ∧
    (parseError env p = none → (verdict env p).IsValid = true →
      ∃ params, Event.execute params ∈ doLog env p ∧ params.Context = some ctx) := by
  obtain ⟨hA, hB, hC⟩ := Do_cases env p
  rcases hp : parseError env p with _ | err
  · cases hv : (verdict env p).IsValid
    · obtain ⟨-, hl⟩ := hB hp hv
      rw [hl, hctx]
      cases h1 : env.StartSpanFromContext ctx "GraphQL Parsing" <;>
        cases h2 : env.StartSpanFromContext ctx "GraphQL Validation" <;>
        (simp [spanOpen, spanClose, finishEvents, h1, h2]; tauto)
    · obtain ⟨-, hl⟩ := hC hp hv
      rw [hl, hctx]
      cases h1 : env.StartSpanFromContext ctx "GraphQL Parsing" <;>
        cases h2 : env.StartSpanFromContext ctx "GraphQL Validation" <;>
        (simp [spanOpen, spanClose, finishEvents, h1, h2, executeParamsOf, hctx]; tauto)
  · obtain ⟨-, hl⟩ := hA err hp
    rw [hl, hctx]
    cases h1 : env.StartSpanFromContext ctx "GraphQL Parsing" <;>
      simp [spanOpen, spanClose, finishEvents, h1]

/-- C5, amended, at the valid request of the spec with the context 4. -/
theorem Do_context_passing_witness :
    (demoParams "\x7b hello \x7d" (some 4)).Context = some 4 ∧
    ((∀ c operationName,
      Event.startSpan c operationName ∈ doLog demoEnv (demoParams "\x7b hello \x7d" (some 4)) → c = 4) ∧
    (∀ params, Event.execute params ∈ doLog demoEnv (demoParams "\x7b hello \x7d" (some 4)) →
      params.Context = some 4) ∧
    (∀ schema astDoc rules,
      Event.validate schema astDoc rules ∈ doLog demoEnv (demoParams "\x7b hello \x7d" (some 4)) →
      schema = (demoParams "\x7b hello \x7d" (some 4)).Schema ∧
        astDoc = parsedAST demoEnv (demoParams "\x7b hello \x7d" (some 4)) ∧ rules = none) ∧
    Event.startSpan 4 "GraphQL Parsing" ∈ doLog demoEnv (demoParams "\x7b hello \x7d" (some 4)) ∧
    (parseError demoEnv (demoParams "\x7b hello \x7d" (some 4)) = none →
      Event.startSpan 4 "GraphQL Validation" ∈ doLog demoEnv (demoParams "\x7b hello \x7d" (some 4))) ∧
    (parseError demoEnv (demoParams "\x7b hello \x7d" (some 4)) = none →
      (verdict demoEnv (demoParams "\x7b hello \x7d" (some 4))).IsValid = true →
      ∃ params, Event.execute params ∈ doLog demoEnv (demoParams "\x7b hello \x7d" (some 4)) ∧
        params.Context = some 4)) :=
  ⟨rfl, Do_context_passing demoEnv (demoParams "\x7b hello \x7d" (some 4)) 4 rfl⟩

/-- C6. With a nil context, the log of `Do` holds no tracer call (no span is started,
none is finished), on each of the three exit paths, and the Result is the one of the
pipeline: the parse-error Result, the validation-error Result, or the Result of the
Executor. -/
theorem Do_without_context {T : Carriers} (env : Env T) (p : Params T)
    (hctx : p.Context = none) :
    (∀ e ∈ doLog env p, e.isTracer = false) ∧
    (∀ err, parseError env p = some err →
      doResult env p = { Data := none, Errors := env.FormatErrors [err] } ∧
      doLog env p = [.parse (requestSource p)]) ∧
    (parseError env p = none → (verdict env p).IsValid = false →
      doResult env p = { Data := none, Errors := (verdict env p).Errors } ∧
      doLog env p = [.parse (requestSource p), .validate p.Schema (parsedAST env p) none]) ∧
    (parseError env p = none → (verdict env p).IsValid = true →
      doResult env p = env.Execute (executeParamsOf p (parsedAST env p)) ∧
      doLog env p = [.parse (requestSource p), .validate p.Schema (parsedAST env p) none,
        .execute (executeParamsOf p (parsedAST env p))]) := by
  obtain ⟨hA, hB, hC⟩ := Do_cases env p
  simp only [hctx, spanOpen_none, spanClose_none, List.nil_append, List.append_nil,
    List.singleton_append, List.cons_append] at hA hB hC
  refine ⟨?_, hA, hB, hC⟩
  rcases hp : parseError env p with _ | err
  · cases hv : (verdict env p).IsValid
    · rw [(hB hp hv).2]; simp [Event.isTracer]
    · rw [(hC hp hv).2]; simp [Event.isTracer]
  · rw [(hA err hp).2]; simp [Event.isTracer]

/-- C6 at the valid request of the spec, without a context. -/
theorem Do_without_context_witness :
    (demoParams "\x7b hello \x7d" none).Context = none ∧
    ((∀ e ∈ doLog demoEnv (demoParams "\x7b hello \x7d" none), e.isTracer = false) ∧
    (∀ err, parseError demoEnv (demoParams "\x7b hello \x7d" none) = some err →
      doResult demoEnv (demoParams "\x7b hello \x7d" none) =
        { Data := none, Errors := demoEnv.FormatErrors [err] } ∧
      doLog demoEnv (demoParams "\x7b hello \x7d" none) =
        [.parse (requestSource (demoParams "\x7b hello \x7d" none))]) ∧
    (parseError demoEnv (demoParams "\x7b hello \x7d" none) = none →
      (verdict demoEnv (demoParams "\x7b hello \x7d" none)).IsValid = false →
      doResult demoEnv (demoParams "\x7b hello \x7d" none) =
        { Data := none, Errors := (verdict demoEnv (demoParams "\x7b hello \x7d" none)).Errors } ∧
      doLog demoEnv (demoParams "\x7b hello \x7d" none) =
        [.parse (requestSource (demoParams "\x7b hello \x7d" none)),
          .validate (demoParams "\x7b hello \x7d" none).Schema
            (parsedAST demoEnv (demoParams "\x7b hello \x7d" none)) none]) ∧
    (parseError demoEnv (demoParams "\x7b hello \x7d" none) = none →
      (verdict demoEnv (demoParams "\x7b hello \x7d" none)).IsValid = true →
      doResult demoEnv (demoParams "\x7b hello \x7d" none) =
        demoEnv.Execute (executeParamsOf (demoParams "\x7b hello \x7d" none)
          (parsedAST demoEnv (demoParams "\x7b hello \x7d" none))) ∧
      doLog demoEnv (demoParams "\x7b hello \x7d" none) =
        [.parse (requestSource (demoParams "\x7b hello \x7d" none)),
          .validate (demoParams "\x7b hello \x7d" none).Schema
            (parsedAST demoEnv (demoParams "\x7b hello \x7d" none)) none,
          .execute (executeParamsOf (demoParams "\x7b hello \x7d" none)
            (parsedAST demoEnv (demoParams "\x7b hello \x7d" none)))])) :=
  ⟨rfl, Do_without_context demoEnv (demoParams "\x7b hello \x7d" none) rfl⟩

/-- The finish calls for a span handle, over the list of the handle. -/
theorem finishEvents_eq {T : Carriers} (span : Option T.Span) :
    (finishEvents span : List (Event T)) = span.toList.map Event.finishSpan := by
  cases span <;> rfl

/-- C7. With a non-nil context `ctx`, the log of `Do` is: start of the span "GraphQL
Parsing", the Parser call, the finish of the span this start returned; then, only when
the Parser returned no error, start of the span "GraphQL Validation", the Validator
call, the finish of the span this start returned; then, only when the verdict is valid,
the Executor call, with no tracer call around it.  Each span that a start call returns
is finished once, right after its phase and before the next call (a nil span handle,
which `toList` drops, is no span). -/
theorem Do_span_sequence {T : Carriers} (env : Env T) (p : Params T) (ctx : T.Context)
    (hctx : p.Context = some ctx) :
    (∀ err, parseError env p = some err →
      doLog env p =
        [.startSpan ctx "GraphQL Parsing", .parse (requestSource p)]
          ++ (env.StartSpanFromContext ctx "GraphQL Parsing").toList.map Event.finishSpan) ∧
    (parseError env p = none → (verdict env p).IsValid = false →
      doLog env p =
        [.startSpan ctx "GraphQL Parsing", .parse (requestSource p)]
          ++ (env.StartSpanFromContext ctx "GraphQL Parsing").toList.map Event.finishSpan
          ++ [.startSpan ctx "GraphQL Validation", .validate p.Schema (parsedAST env p) none]
          ++ (env.StartSpanFromContext ctx "GraphQL Validation").toList.map Event.finishSpan) ∧
    (parseError env p = none → (verdict env p).IsValid = true →
      doLog env p =
        [.startSpan ctx "GraphQL Parsing", .parse (requestSource p)]
          ++ (env.StartSpanFromContext ctx "GraphQL Parsing").toList.map Event.finishSpan
          ++ [.startSpan ctx "GraphQL Validation", .validate p.Schema (parsedAST env p) none]
          ++ (env.StartSpanFromContext ctx "GraphQL Validation").toList.map Event.finishSpan
          ++ [.execute (executeParamsOf p (parsedAST env p))]) := by
  obtain ⟨hA, hB, hC⟩ := Do_cases env p
  simp only [hctx, spanOpen, spanClose, finishEvents_eq] at hA hB hC
  refine ⟨fun err h => ?_, fun h1 h2 => ?_, fun h1 h2 => ?_⟩
  · rw [(hA err h).2]; simp
  · rw [(hB h1 h2).2]; simp
  · rw [(hC h1 h2).2]; simp

/-- C7 at the valid request of the spec with the context 4: the seven calls. -/
theorem Do_span_sequence_witness :
    (demoParams "\x7b hello \x7d" (some 4)).Context = some 4 ∧
    doLog demoEnv (demoParams "\x7b hello \x7d" (some 4)) =
      [.startSpan 4 "GraphQL Parsing", .parse (requestSource (demoParams "\x7b hello \x7d" (some 4))),
        .finishSpan "GraphQL Parsing",
        .startSpan 4 "GraphQL Validation",
        .validate 9 (parsedAST demoEnv (demoParams "\x7b hello \x7d" (some 4))) none,
        .finishSpan "GraphQL Validation",
        .execute (executeParamsOf (demoParams "\x7b hello \x7d" (some 4))
          (parsedAST demoEnv (demoParams "\x7b hello \x7d" (some 4))))] :=
  ⟨rfl, (Do_span_sequence demoEnv (demoParams "\x7b hello \x7d" (some 4)) 4 rfl).2.2
    (by decide) (by decide)⟩

/-- C8. When the request passes parsing and validation, the Executor is called once,
with Schema, Root, AST, OperationName, Args, Context, PanicHandler and Executor taken
from `p.Schema`, `p.RootObject`, the AST of the Parser, `p.OperationName`,
`p.VariableValues`, `p.Context`, `p.PanicHandler` and `p.Executor`; a strategy left
unset stays unset. -/
theorem Do_execute_arguments {T : Carriers} (env : Env T) (p : Params T)
    (hparse : parseError env p = none) (hvalid : (verdict env p).IsValid = true) :
    (doLog env p).filterMap Event.executeArgs =
      [{ Schema := p.Schema, Root := p.RootObject, AST := (env.Parse (requestSource p)).1,
         OperationName := p.OperationName, Args := p.VariableValues, Context := p.Context,
         PanicHandler := p.PanicHandler, Executor := p.Executor }] ∧
    (p.Executor = none →
      ∀ call ∈ (doLog env p).filterMap Event.executeArgs, call.Executor = none) := by
  obtain ⟨-, hl⟩ := (Do_cases env p).2.2 hparse hvalid
  have key : (doLog env p).filterMap Event.executeArgs =
      [executeParamsOf p (parsedAST env p)] := by
    rw [hl]
    rcases hc : p.Context with _ | ctx
    · simp [spanOpen, spanClose, Event.executeArgs]
    · cases h1 : env.StartSpanFromContext ctx "GraphQL Parsing" <;>
        cases h2 : env.StartSpanFromContext ctx "GraphQL Validation" <;>
        simp [spanOpen, spanClose, finishEvents, h1, h2, Event.executeArgs]
  refine ⟨key, fun hnone call hcall => ?_⟩
  rw [key, List.mem_singleton] at hcall
  rw [hcall]
  exact hnone

/-- C8 at the valid request of the spec. -/
theorem Do_execute_arguments_witness :
    parseError demoEnv (demoParams "\x7b hello \x7d" (some 4)) = none ∧
    (verdict demoEnv (demoParams "\x7b hello \x7d" (some 4))).IsValid = true ∧
    (doLog demoEnv (demoParams "\x7b hello \x7d" (some 4))).filterMap Event.executeArgs =
      [{ Schema := 9, Root := [("viewer", 1)], AST := bytesOf "\x7b hello \x7d",
         OperationName := "Hello", Args := [("id", 7)], Context := some 4,
         PanicHandler := none, Executor := none }] :=
  ⟨by decide, by decide,
    (Do_execute_arguments demoEnv (demoParams "\x7b hello \x7d" (some 4)) (by decide)
      (by decide)).1⟩

/-- C9. In every call of `Do` the phase calls are, in this order: the Parser call;
then, only when the Parser returned no error, the Validator call; then, only when the
verdict is valid, the Executor call.  So the Parser is called once, the Validator once
or not at all, the Executor once or not at all, and none is called again. -/
theorem Do_phase_order {T : Carriers} (env : Env T) (p : Params T) :
    (doLog env p).filter Event.isPhase =
      .parse (requestSource p) ::
        (if (parseError env p).isNone then
          .validate p.Schema (parsedAST env p) none ::
            (if (verdict env p).IsValid then [.execute (executeParamsOf p (parsedAST env p))]
             else [])
         else []) ∧
    (doLog env p).countP Event.isParse = 1 ∧
    (doLog env p).countP Event.isValidate = (if (parseError env p).isNone then 1 else 0) ∧
    (doLog env p).countP Event.isExecute =
      (if (parseError env p).isNone && (verdict env p).IsValid then 1 else 0) := by
  obtain ⟨hA, hB, hC⟩ := Do_cases env p
  rcases hp : parseError env p with _ | err
  · cases hv : (verdict env p).IsValid
    · rw [(hB hp hv).2]
      rcases p.Context with _ | ctx
      · simp [spanOpen, spanClose, Event.isPhase, Event.isParse, Event.isValidate,
          Event.isExecute, List.countP_cons]
      · cases h1 : env.StartSpanFromContext ctx "GraphQL Parsing" <;>
          cases h2 : env.StartSpanFromContext ctx "GraphQL Validation" <;>
          simp [spanOpen, spanClose, finishEvents, h1, h2, Event.isPhase, Event.isParse,
            Event.isValidate, Event.isExecute, List.countP_cons]
    · rw [(hC hp hv).2]
      rcases p.Context with _ | ctx
      · simp [spanOpen, spanClose, Event.isPhase, Event.isParse, Event.isValidate,
          Event.isExecute, List.countP_cons]
      · cases h1 : env.StartSpanFromContext ctx "GraphQL Parsing" <;>
          cases h2 : env.StartSpanFromContext ctx "GraphQL Validation" <;>
          simp [spanOpen, spanClose, finishEvents, h1, h2, Event.isPhase, Event.isParse,
            Event.isValidate, Event.isExecute, List.countP_cons]
  · rw [(hA err hp).2]
    rcases p.Context with _ | ctx
    · simp [spanOpen, spanClose, Event.isPhase, Event.isParse, Event.isValidate,
        Event.isExecute, List.countP_cons]
    · cases h1 : env.StartSpanFromContext ctx "GraphQL Parsing" <;>
        simp [spanOpen, spanClose, finishEvents, h1, Event.isPhase, Event.isParse,
          Event.isValidate, Event.isExecute, List.countP_cons]

/-- C10. When the request text parses, the Validator is called once, with the schema
`p.Schema`, the AST that the Parser returned for the Source with the bytes of
`p.RequestString` as body and the name "GraphQL request", and nil rules; a request with
the same schema and the same text leads to the same Validator call, whatever its other
fields are. -/
theorem Do_validate_arguments {T : Carriers} (env : Env T) (p : Params T)
    (hparse : parseError env p = none) :
    (doLog env p).filterMap Event.validateArgs =
      [(p.Schema,
        (env.Parse { Source := { Body := bytesOf p.RequestString, Name := "GraphQL request" } }).1,
        none)] ∧
    ∀ q : Params T, q.Schema = p.Schema → q.RequestString = p.RequestString →
      (doLog env q).filterMap Event.validateArgs = (doLog env p).filterMap Event.validateArgs := by
  have key : ∀ r : Params T, parseError env r = none →
      (doLog env r).filterMap Event.validateArgs =
        [(r.Schema,
          (env.Parse { Source := { Body := bytesOf r.RequestString,
                                   Name := "GraphQL request" } }).1,
          none)] := by
    intro r hr
    obtain ⟨-, hB, hC⟩ := Do_cases env r
    have hl : ∃ tail, doLog env r = spanOpen r.Context "GraphQL Parsing" ++ [.parse (requestSource r)]
        ++ spanClose env r.Context "GraphQL Parsing"
        ++ spanOpen r.Context "GraphQL Validation" ++ [.validate r.Schema (parsedAST env r) none]
        ++ spanClose env r.Context "GraphQL Validation" ++ tail ∧
        tail.filterMap Event.validateArgs = [] := by
      cases hv : (verdict env r).IsValid
      · exact ⟨[], by rw [(hB hr hv).2, List.append_nil], rfl⟩
      · exact ⟨_, (hC hr hv).2, rfl⟩
    obtain ⟨tail, hl, ht⟩ := hl
    rw [hl]
    rcases r.Context with _ | ctx
    · simp [spanOpen, spanClose, Event.validateArgs, ht, parsedAST, requestSource, NewSource]
    · cases h1 : env.StartSpanFromContext ctx "GraphQL Parsing" <;>
        cases h2 : env.StartSpanFromContext ctx "GraphQL Validation" <;>
        simp [spanOpen, spanClose, finishEvents, h1, h2, Event.validateArgs, ht, parsedAST,
          requestSource, NewSource]
  refine ⟨key p hparse, fun q hs hr => ?_⟩
  have hq : parseError env q = none := by
    simpa [parseError, requestSource, hr] using hparse
  rw [key q hq, key p hparse, hs, hr]

/-- C10 at the valid request of the spec. -/
theorem Do_validate_arguments_witness :
    parseError demoEnv (demoParams "\x7b hello \x7d" (some 4)) = none ∧
    (doLog demoEnv (demoParams "\x7b hello \x7d" (some 4))).filterMap Event.validateArgs =
      [(9, bytesOf "\x7b hello \x7d", none)] :=
  ⟨by decide, (Do_validate_arguments demoEnv (demoParams "\x7b hello \x7d" (some 4)) (by decide)).1⟩

end Graphql
